import Mathlib

/-!
Verification of the time-scale controller and state/event routing of the
`dwarf_seeks_fortune` repository.

The relevant source functions perform no floating-point arithmetic: they only
copy `f32` values and compare them with `<` and `>`.  The order on the finite
`f32` values (NaN never occurs: all values come from configuration literals)
embeds faithfully into the order on `ℚ`, so we model every `f32` field as a
rational number.
-/

namespace DSF

/-- Embedding of `DebugConfig` from `dsf_core/src/resources/config.rs`. -/
structure DebugConfig where
  time_scale_presets : List ℚ
  time_scale : ℚ
  player_speed : ℚ
  seconds_per_rewind_frame : ℚ
  skip_straight_to_editor : Bool
  display_debug_frames : Bool
  deriving Repr, DecidableEq

/-- Embedding of `DebugConfig::increase_speed`: scan `time_scale_presets`
front to back (`.iter().find(...)`) for the first value strictly greater than
`time_scale`; on a hit, update `time_scale` and return `(old, new)`, otherwise
leave the config unchanged and return `(time_scale, time_scale)`.
Returns the updated config together with the returned pair. -/
def increase_speed (c : DebugConfig) : DebugConfig × (ℚ × ℚ) :=
  let old_time_scale := c.time_scale
  let new_time_scale := c.time_scale_presets.find? (fun scale => decide (scale > c.time_scale))
  match new_time_scale with
  | some n => ({ c with time_scale := n }, (old_time_scale, n))
  | none => (c, (c.time_scale, c.time_scale))

/-- Embedding of `DebugConfig::decrease_speed`: scan `time_scale_presets`
back to front (`.iter().rev().find(...)`) for the first value strictly less
than `time_scale`; on a hit, update `time_scale` and return `(old, new)`,
otherwise leave the config unchanged and return `(time_scale, time_scale)`. -/
def decrease_speed (c : DebugConfig) : DebugConfig × (ℚ × ℚ) :=
  let old_time_scale := c.time_scale
  let new_time_scale :=
    c.time_scale_presets.reverse.find? (fun scale => decide (scale < c.time_scale))
  match new_time_scale with
  | some n => ({ c with time_scale := n }, (old_time_scale, n))
  | none => (c, (c.time_scale, c.time_scale))

/-- Embedding of `MovementConfig` from `dsf_core/src/resources/config.rs`. -/
structure MovementConfig where
  player_speed : ℚ
  jump_allowance : ℚ
  deriving Repr, DecidableEq

/-- The virtual key codes `DemoState::handle_event` inspects; all other keys
are collapsed into `Other`. -/
inductive VirtualKeyCode where
  | F1
  | Escape
  | Other (code : Nat)
  deriving Repr, DecidableEq

/-- Window events, as far as `is_close_requested` / `is_key_down` can
distinguish them. -/
inductive WindowEvent where
  | CloseRequested
  | KeyDown (key : VirtualKeyCode)
  | OtherWindow (code : Nat)
  deriving Repr, DecidableEq

/-- Embedding of `amethyst::input::is_close_requested`. -/
def is_close_requested : WindowEvent → Bool
  | .CloseRequested => true
  | _ => false

/-- Embedding of `amethyst::input::is_key_down`. -/
def is_key_down (e : WindowEvent) (k : VirtualKeyCode) : Bool :=
  match e with
  | .KeyDown k2 => decide (k2 = k)
  | _ => false

/-- Input events: `InputEvent::ActionPressed(action)` carries the bound action
name; every other `InputEvent` variant is collapsed into `OtherInput`. -/
inductive InputEvent where
  | ActionPressed (action : String)
  | OtherInput (code : Nat)
  deriving Repr, DecidableEq

/-- Embedding of `amethyst::StateEvent`. -/
inductive StateEvent where
  | Window (e : WindowEvent)
  | Ui (widget : Nat)
  | Input (e : InputEvent)
  deriving Repr, DecidableEq

/-- The transition requests `DemoState` can produce: `Trans::None`,
`Trans::Quit`, and `Trans::Push(PausedState)`. -/
inductive TransitionRequest where
  | None
  | Quit
  | PushPaused
  deriving Repr, DecidableEq

/-- Embedding of `DemoState::handle_action` from `src/states/demo.rs`: the
action `"speedUp"` calls `increase_speed`, `"slowDown"` calls
`decrease_speed`, anything else does nothing; every branch returns
`Trans::None`.  The state threaded through is the `DebugConfig` resource. -/
def handle_action (action : String) (config : DebugConfig) :
    DebugConfig × TransitionRequest :=
  if action = "speedUp" then
    ((increase_speed config).1, TransitionRequest.None)
  else if action = "slowDown" then
    ((decrease_speed config).1, TransitionRequest.None)
  else
    (config, TransitionRequest.None)

/-- Embedding of `DemoState::handle_event` from `src/states/demo.rs`. -/
def handle_event (config : DebugConfig) (event : StateEvent) :
    DebugConfig × TransitionRequest :=
  match event with
  | .Window e =>
      if is_close_requested e || is_key_down e VirtualKeyCode.F1 then
        (config, TransitionRequest.Quit)
      else if is_key_down e VirtualKeyCode.Escape then
        (config, TransitionRequest.PushPaused)
      else
        (config, TransitionRequest.None)
  | .Ui _ => (config, TransitionRequest.None)
  | .Input input_event =>
      match input_event with
      | .ActionPressed action => handle_action action config
      | _ => (config, TransitionRequest.None)

/-- The scenario configuration of spec §8: presets `[0.5, 1.0, 2.0, 4.0]`,
initial scale `1.0`; the remaining fields are irrelevant to the scenario. -/
def scenarioConfig : DebugConfig := ⟨[1/2, 1, 2, 4], 1, 0, 0, false, false⟩

/-- A configuration value, as far as the two config records need: a float, a
list of floats, or a boolean. -/
inductive ConfigValue where
  | float (q : ℚ)
  | floatList (qs : List ℚ)
  | boolean (b : Bool)
  deriving Repr, DecidableEq

/-- The declared field names of `DebugConfig`. -/
def debugConfigFieldNames : List String :=
  ["time_scale_presets", "time_scale", "player_speed", "seconds_per_rewind_frame",
   "skip_straight_to_editor", "display_debug_frames"]

/-- The declared field names of `MovementConfig`. -/
def movementConfigFieldNames : List String :=
  ["player_speed", "jump_allowance"]

/-- The `Default` value of `DebugConfig` (derived: empty list, zeros, false). -/
def debugConfigDefault : DebugConfig := ⟨[], 0, 0, 0, false, false⟩

/-- The `Default` value of `MovementConfig` (derived: zeros). -/
def movementConfigDefault : MovementConfig := ⟨0, 0⟩

/-- Modelled from the spec: the deserializer for `DebugConfig` is generated by
`#[derive(Deserialize)]` and is not present under `src/`;
`dsf_core/src/resources/config.rs` declares it with `#[serde(default)]`
(missing fields take default values) and `#[serde(deny_unknown_fields)]`.
The spec says unknown fields "must be rejected (strict schema) rather than
silently ignored".  This function processes one (field name, value) pair:
a declared name updates the corresponding field (a value of the wrong type is
an error, as in serde), and an undeclared name is an error. -/
def applyDebugConfigField (c : DebugConfig) (name : String) (v : ConfigValue) :
    Except String DebugConfig :=
  if name = "time_scale_presets" then
    match v with
    | .floatList qs => .ok { c with time_scale_presets := qs }
    | _ => .error "invalid type for time_scale_presets"
  else if name = "time_scale" then
    match v with
    | .float q => .ok { c with time_scale := q }
    | _ => .error "invalid type for time_scale"
  else if name = "player_speed" then
    match v with
    | .float q => .ok { c with player_speed := q }
    | _ => .error "invalid type for player_speed"
  else if name = "seconds_per_rewind_frame" then
    match v with
    | .float q => .ok { c with seconds_per_rewind_frame := q }
    | _ => .error "invalid type for seconds_per_rewind_frame"
  else if name = "skip_straight_to_editor" then
    match v with
    | .boolean b => .ok { c with skip_straight_to_editor := b }
    | _ => .error "invalid type for skip_straight_to_editor"
  else if name = "display_debug_frames" then
    match v with
    | .boolean b => .ok { c with display_debug_frames := b }
    | _ => .error "invalid type for display_debug_frames"
  else
    .error ("unknown field " ++ name)

/-- Modelled from the spec: deserializing `DebugConfig` from a list of
(field name, value) pairs, starting from the `Default` record per
`#[serde(default)]`; the first offending field aborts with an error. -/
def deserializeDebugConfig :
    List (String × ConfigValue) → DebugConfig → Except String DebugConfig
  | [], c => .ok c
  | (name, v) :: rest, c =>
    match applyDebugConfigField c name v with
    | .ok c2 => deserializeDebugConfig rest c2
    | .error e => .error e

/-- Modelled from the spec: one (field name, value) pair of `MovementConfig`,
declared with `#[serde(default)]` and `#[serde(deny_unknown_fields)]`. -/
def applyMovementConfigField (c : MovementConfig) (name : String)
    (v : ConfigValue) : Except String MovementConfig :=
  if name = "player_speed" then
    match v with
    | .float q => .ok { c with player_speed := q }
    | _ => .error "invalid type for player_speed"
  else if name = "jump_allowance" then
    match v with
    | .float q => .ok { c with jump_allowance := q }
    | _ => .error "invalid type for jump_allowance"
  else
    .error ("unknown field " ++ name)

/-- Modelled from the spec: deserializing `MovementConfig` from a list of
(field name, value) pairs, starting from the `Default` record. -/
def deserializeMovementConfig :
    List (String × ConfigValue) → MovementConfig → Except String MovementConfig
  | [], c => .ok c
  | (name, v) :: rest, c =>
    match applyMovementConfigField c name v with
    | .ok c2 => deserializeMovementConfig rest c2
    | .error e => .error e

/-- A forward scan (`List.find?`) returns the element at the least index
satisfying the predicate. -/
theorem find?_eq_some_of_first {α : Type} (p : α → Bool) (l : List α) :
    ∀ (i : Nat) (hi : i < l.length),
      p (l.get ⟨i, hi⟩) = true →
      (∀ j (hj : j < l.length), j < i → p (l.get ⟨j, hj⟩) = false) →
      l.find? p = some (l.get ⟨i, hi⟩) := by
  induction l with
  | nil => intro i hi; simp at hi
  | cons x xs ih =>
    intro i hi hp hfirst
    cases i with
    | zero => simpa using List.find?_cons_of_pos _ (by simpa using hp)
    | succ k =>
      have hx : p x = false := by simpa using hfirst 0 (by simp) (Nat.succ_pos k)
      rw [List.find?_cons_of_neg _ (by simp [hx])]
      simpa using ih k (by simpa using hi) (by simpa using hp)
        (fun j hj hjk => by
          simpa using hfirst (j + 1) (by simpa using Nat.succ_lt_succ hj)
            (Nat.succ_lt_succ hjk))

/-- A backward scan (`List.find?` on the reversed list) returns the element at
the greatest index satisfying the predicate. -/
theorem reverse_find?_eq_some_of_last {α : Type} (p : α → Bool) (l : List α)
    (i : Nat) (hi : i < l.length)
    (hp : p (l.get ⟨i, hi⟩) = true)
    (hlast : ∀ j (hj : j < l.length), i < j → p (l.get ⟨j, hj⟩) = false) :
    l.reverse.find? p = some (l.get ⟨i, hi⟩) := by
  have hlen : l.length - 1 - i < l.reverse.length := by simp; omega
  have hrev : l.reverse.get ⟨l.length - 1 - i, hlen⟩ = l.get ⟨i, hi⟩ := by
    have h2 : l.length - 1 - (l.length - 1 - i) = i := by omega
    rw [List.get_eq_getElem, List.get_eq_getElem, List.getElem_reverse]
    simp only [h2]
  have := find?_eq_some_of_first p l.reverse (l.length - 1 - i) hlen
    (by rw [hrev]; exact hp)
    (fun j hj hji => by
      have hj' : l.length - 1 - j < l.length := by simp at hj; omega
      rw [List.get_reverse' l ⟨j, hj⟩ hj']
      exact hlast _ hj' (by simp at hj; omega))
  rw [this, hrev]

/-- C1: `increase_speed` scans the presets front to back for the first value
strictly greater than the current scale; on a hit the scale becomes that value
and the pair `(old, new)` is returned, otherwise the config is unchanged and
`(current, current)` is returned. -/
theorem c1_increase_speed_scans_ascending (c : DebugConfig) :
    ((∀ x ∈ c.time_scale_presets, ¬ c.time_scale < x) →
      increase_speed c = (c, (c.time_scale, c.time_scale)))
    ∧
    (∀ i (hi : i < c.time_scale_presets.length),
      c.time_scale < c.time_scale_presets.get ⟨i, hi⟩ →
      (∀ j (hj : j < c.time_scale_presets.length), j < i →
        ¬ c.time_scale < c.time_scale_presets.get ⟨j, hj⟩) →
      increase_speed c =
        ({ c with time_scale := c.time_scale_presets.get ⟨i, hi⟩ },
         (c.time_scale, c.time_scale_presets.get ⟨i, hi⟩))) := by
  constructor
  · intro h
    have hnone : c.time_scale_presets.find? (fun scale => decide (scale > c.time_scale))
        = none :=
      List.find?_eq_none.mpr (fun x hx => by simpa using h x hx)
    simp [increase_speed, hnone]
  · intro i hi hp hfirst
    have hsome : c.time_scale_presets.find? (fun scale => decide (scale > c.time_scale))
        = some (c.time_scale_presets.get ⟨i, hi⟩) :=
      find?_eq_some_of_first _ _ i hi (by simpa using hp)
        (fun j hj hji => by simpa using hfirst j hj hji)
    simp [increase_speed, hsome]

/-- C1 witness: with presets `[3, 5]` and scale `4`, the first preset greater
than `4` is `5` (at index 1; index 0 holds `3`, not greater), so the call
returns `(4, 5)` and sets the scale to `5`. -/
theorem c1_witness :
    increase_speed ⟨[3, 5], 4, 0, 0, false, false⟩ =
      (⟨[3, 5], 5, 0, 0, false, false⟩, (4, 5)) := by
  have h := (c1_increase_speed_scans_ascending ⟨[3, 5], 4, 0, 0, false, false⟩).2 1
    (by norm_num) (by norm_num)
    (fun j hj hj1 => by
      have hj0 : j = 0 := by omega
      subst hj0
      norm_num)
  simpa using h

/-- C2: `decrease_speed` scans the presets back to front for the first value
strictly less than the current scale; on a hit the scale becomes that value
and the pair `(old, new)` is returned, otherwise the config is unchanged and
`(current, current)` is returned. -/
theorem c2_decrease_speed_scans_descending (c : DebugConfig) :
    ((∀ x ∈ c.time_scale_presets, ¬ x < c.time_scale) →
      decrease_speed c = (c, (c.time_scale, c.time_scale)))
    ∧
    (∀ i (hi : i < c.time_scale_presets.length),
      c.time_scale_presets.get ⟨i, hi⟩ < c.time_scale →
      (∀ j (hj : j < c.time_scale_presets.length), i < j →
        ¬ c.time_scale_presets.get ⟨j, hj⟩ < c.time_scale) →
      decrease_speed c =
        ({ c with time_scale := c.time_scale_presets.get ⟨i, hi⟩ },
         (c.time_scale, c.time_scale_presets.get ⟨i, hi⟩))) := by
  constructor
  · intro h
    have hnone : c.time_scale_presets.reverse.find?
        (fun scale => decide (scale < c.time_scale)) = none :=
      List.find?_eq_none.mpr (fun x hx => by
        simpa using h x (List.mem_reverse.mp hx))
    simp [decrease_speed, hnone]
  · intro i hi hp hlast
    have hsome : c.time_scale_presets.reverse.find?
        (fun scale => decide (scale < c.time_scale))
        = some (c.time_scale_presets.get ⟨i, hi⟩) :=
      reverse_find?_eq_some_of_last _ _ i hi (by simpa using hp)
        (fun j hj hji => by simpa using hlast j hj hji)
    simp [decrease_speed, hsome]

/-- C2 witness: with presets `[3, 5]` and scale `4`, the descending scan hits
`3` (index 0; index 1 holds `5`, not less than `4`), so the call returns
`(4, 3)` and sets the scale to `3`. -/
theorem c2_witness :
    decrease_speed ⟨[3, 5], 4, 0, 0, false, false⟩ =
      (⟨[3, 5], 3, 0, 0, false, false⟩, (4, 3)) := by
  have h := (c2_decrease_speed_scans_descending ⟨[3, 5], 4, 0, 0, false, false⟩).2 0
    (by norm_num) (by norm_num)
    (fun j hj hj1 => by
      simp only [List.length_cons, List.length_nil] at hj
      have hj0 : j = 1 := by omega
      subst hj0
      norm_num)
  simpa using h

/-- When no preset lies strictly above the current scale, `increase_speed` is
a no-op returning `(current, current)`. -/
theorem increase_speed_of_no_greater (c : DebugConfig)
    (h : ∀ x ∈ c.time_scale_presets, x ≤ c.time_scale) :
    increase_speed c = (c, (c.time_scale, c.time_scale)) := by
  have hnone : c.time_scale_presets.find?
      (fun scale => decide (scale > c.time_scale)) = none :=
    List.find?_eq_none.mpr (fun x hx => by simpa using not_lt.mpr (h x hx))
  simp [increase_speed, hnone]

/-- When no preset lies strictly below the current scale, `decrease_speed` is
a no-op returning `(current, current)`. -/
theorem decrease_speed_of_no_less (c : DebugConfig)
    (h : ∀ x ∈ c.time_scale_presets, c.time_scale ≤ x) :
    decrease_speed c = (c, (c.time_scale, c.time_scale)) := by
  have hnone : c.time_scale_presets.reverse.find?
      (fun scale => decide (scale < c.time_scale)) = none :=
    List.find?_eq_none.mpr (fun x hx => by
      simpa using not_lt.mpr (h x (List.mem_reverse.mp hx)))
  simp [decrease_speed, hnone]

/-- C3: with presets `[0.5, 1.0, 2.0, 4.0]` and initial scale `1.0`, three
calls of `increase_speed` return `(1, 2)`, `(2, 4)`, `(4, 4)`, and a
subsequent `decrease_speed` returns `(4, 2)`. -/
theorem c3_scenario :
    (increase_speed scenarioConfig).2 = (1, 2) ∧
    (increase_speed (increase_speed scenarioConfig).1).2 = (2, 4) ∧
    (increase_speed (increase_speed (increase_speed scenarioConfig).1).1).2
      = (4, 4) ∧
    (decrease_speed
      (increase_speed (increase_speed (increase_speed scenarioConfig).1).1).1).2
      = (4, 2) := by
  norm_num [increase_speed, decrease_speed, scenarioConfig, List.find?]

/-- C4: with an empty presets list, `increase_speed` and `decrease_speed` are
no-ops returning `(x, x)` for every starting scale `x` (and every value of the
other fields); both operations are total Lean functions, so no error condition
exists. -/
theorem c4_empty_presets_noop (x p s : ℚ) (b1 b2 : Bool) :
    increase_speed ⟨[], x, p, s, b1, b2⟩ = (⟨[], x, p, s, b1, b2⟩, (x, x)) ∧
    decrease_speed ⟨[], x, p, s, b1, b2⟩ = (⟨[], x, p, s, b1, b2⟩, (x, x)) :=
  ⟨rfl, rfl⟩

/-- C5: when the current scale is at or above every preset, any number of
`increase_speed` calls leaves the config unchanged and each call returns
`(current, current)`; symmetrically for `decrease_speed` at or below every
preset. -/
theorem c5_boundary_idempotent (c : DebugConfig) (n : Nat) :
    ((∀ x ∈ c.time_scale_presets, x ≤ c.time_scale) →
      (fun d => (increase_speed d).1)^[n] c = c ∧
      (increase_speed c).2 = (c.time_scale, c.time_scale))
    ∧
    ((∀ x ∈ c.time_scale_presets, c.time_scale ≤ x) →
      (fun d => (decrease_speed d).1)^[n] c = c ∧
      (decrease_speed c).2 = (c.time_scale, c.time_scale)) := by
  constructor
  · intro h
    have hfix : (increase_speed c).1 = c := by
      simp [increase_speed_of_no_greater c h]
    refine ⟨?_, by simp [increase_speed_of_no_greater c h]⟩
    induction n with
    | zero => rfl
    | succ k ihk => rw [Function.iterate_succ_apply]; simp only [hfix]; exact ihk
  · intro h
    have hfix : (decrease_speed c).1 = c := by
      simp [decrease_speed_of_no_less c h]
    refine ⟨?_, by simp [decrease_speed_of_no_less c h]⟩
    induction n with
    | zero => rfl
    | succ k ihk => rw [Function.iterate_succ_apply]; simp only [hfix]; exact ihk

/-- C5 witness: with presets `[1, 2, 4]`, three `increase_speed` calls at
scale `4` leave the config fixed and return `(4, 4)`; three `decrease_speed`
calls at scale `1` leave the config fixed and return `(1, 1)`. -/
theorem c5_witness :
    ((fun d => (increase_speed d).1)^[3]
        (⟨[1, 2, 4], 4, 0, 0, false, false⟩ : DebugConfig)
        = ⟨[1, 2, 4], 4, 0, 0, false, false⟩ ∧
      (increase_speed ⟨[1, 2, 4], 4, 0, 0, false, false⟩).2 = (4, 4)) ∧
    ((fun d => (decrease_speed d).1)^[3]
        (⟨[1, 2, 4], 1, 0, 0, false, false⟩ : DebugConfig)
        = ⟨[1, 2, 4], 1, 0, 0, false, false⟩ ∧
      (decrease_speed ⟨[1, 2, 4], 1, 0, 0, false, false⟩).2 = (1, 1)) := by
  constructor
  · exact (c5_boundary_idempotent ⟨[1, 2, 4], 4, 0, 0, false, false⟩ 3).1
      (by intro x hx; fin_cases hx <;> norm_num)
  · exact (c5_boundary_idempotent ⟨[1, 2, 4], 1, 0, 0, false, false⟩ 3).2
      (by intro x hx; fin_cases hx <;> norm_num)

/-- C9: the pair returned by `increase_speed` is (scale before, scale after),
with after ≥ before, and after > before exactly when some preset exceeds the
old scale; symmetrically `decrease_speed` returns after ≤ before, with
after < before exactly when some preset lies below the old scale. -/
theorem c9_returned_pair_direction (c : DebugConfig) :
    ((increase_speed c).2.1 = c.time_scale ∧
      (increase_speed c).2.2 = (increase_speed c).1.time_scale ∧
      (increase_speed c).2.1 ≤ (increase_speed c).2.2 ∧
      ((increase_speed c).2.1 < (increase_speed c).2.2 ↔
        ∃ x ∈ c.time_scale_presets, c.time_scale < x)) ∧
    ((decrease_speed c).2.1 = c.time_scale ∧
      (decrease_speed c).2.2 = (decrease_speed c).1.time_scale ∧
      (decrease_speed c).2.2 ≤ (decrease_speed c).2.1 ∧
      ((decrease_speed c).2.2 < (decrease_speed c).2.1 ↔
        ∃ x ∈ c.time_scale_presets, x < c.time_scale)) := by
  constructor
  · cases hfind : c.time_scale_presets.find?
        (fun scale => decide (scale > c.time_scale)) with
    | none =>
      have heq : increase_speed c = (c, (c.time_scale, c.time_scale)) := by
        simp [increase_speed, hfind]
      rw [heq]
      refine ⟨rfl, rfl, le_refl _, ?_⟩
      simp only [lt_self_iff_false, false_iff]
      rintro ⟨x, hx, hlt⟩
      have hnx := List.find?_eq_none.mp hfind x hx
      simp at hnx
      exact absurd hlt (not_lt.mpr hnx)
    | some n =>
      have hp : c.time_scale < n := by simpa using List.find?_some hfind
      have hmem : n ∈ c.time_scale_presets := List.mem_of_find?_eq_some hfind
      have heq : increase_speed c
          = ({ c with time_scale := n }, (c.time_scale, n)) := by
        simp [increase_speed, hfind]
      rw [heq]
      exact ⟨rfl, rfl, le_of_lt hp, fun _ => ⟨n, hmem, hp⟩, fun _ => hp⟩
  · cases hfind : c.time_scale_presets.reverse.find?
        (fun scale => decide (scale < c.time_scale)) with
    | none =>
      have heq : decrease_speed c = (c, (c.time_scale, c.time_scale)) := by
        simp [decrease_speed, hfind]
      rw [heq]
      refine ⟨rfl, rfl, le_refl _, ?_⟩
      simp only [lt_self_iff_false, false_iff]
      rintro ⟨x, hx, hlt⟩
      have hnx := List.find?_eq_none.mp hfind x (List.mem_reverse.mpr hx)
      simp at hnx
      exact absurd hlt (not_lt.mpr hnx)
    | some n =>
      have hp : n < c.time_scale := by simpa using List.find?_some hfind
      have hmem : n ∈ c.time_scale_presets :=
        List.mem_reverse.mp (List.mem_of_find?_eq_some hfind)
      have heq : decrease_speed c
          = ({ c with time_scale := n }, (c.time_scale, n)) := by
        simp [decrease_speed, hfind]
      rw [heq]
      exact ⟨rfl, rfl, le_of_lt hp, fun _ => ⟨n, hmem, hp⟩, fun _ => hp⟩

/-- C10: `increase_speed` and `decrease_speed` leave every field other than
`time_scale` unchanged. -/
theorem c10_only_time_scale_mutated (c : DebugConfig) :
    ((increase_speed c).1.time_scale_presets = c.time_scale_presets ∧
      (increase_speed c).1.player_speed = c.player_speed ∧
      (increase_speed c).1.seconds_per_rewind_frame
        = c.seconds_per_rewind_frame ∧
      (increase_speed c).1.skip_straight_to_editor
        = c.skip_straight_to_editor ∧
      (increase_speed c).1.display_debug_frames = c.display_debug_frames) ∧
    ((decrease_speed c).1.time_scale_presets = c.time_scale_presets ∧
      (decrease_speed c).1.player_speed = c.player_speed ∧
      (decrease_speed c).1.seconds_per_rewind_frame
        = c.seconds_per_rewind_frame ∧
      (decrease_speed c).1.skip_straight_to_editor
        = c.skip_straight_to_editor ∧
      (decrease_speed c).1.display_debug_frames = c.display_debug_frames) := by
  constructor
  · cases hfind : c.time_scale_presets.find?
        (fun scale => decide (scale > c.time_scale)) with
    | none => simp [increase_speed, hfind]
    | some n => simp [increase_speed, hfind]
  · cases hfind : c.time_scale_presets.reverse.find?
        (fun scale => decide (scale < c.time_scale)) with
    | none => simp [decrease_speed, hfind]
    | some n => simp [decrease_speed, hfind]

/-- C6: `handle_action` routes `"speedUp"` to `increase_speed` and
`"slowDown"` to `decrease_speed`, each returning `Trans::None`; every other
action name is a no-op returning `Trans::None`. -/
theorem c6_action_routing (c : DebugConfig) :
    handle_action "speedUp" c = ((increase_speed c).1, TransitionRequest.None) ∧
    handle_action "slowDown" c
      = ((decrease_speed c).1, TransitionRequest.None) ∧
    ∀ a : String, a ≠ "speedUp" → a ≠ "slowDown" →
      handle_action a c = (c, TransitionRequest.None) := by
  refine ⟨rfl, ?_, fun a h1 h2 => ?_⟩
  · simp [handle_action]
  · simp [handle_action, h1, h2]

/-- C6 witness: the unbound action name `"pause"` routes to a no-op with
`Trans::None`. -/
theorem c6_witness :
    handle_action "pause" debugConfigDefault
      = (debugConfigDefault, TransitionRequest.None) :=
  (c6_action_routing debugConfigDefault).2.2 "pause" (by decide) (by decide)

/-- C8: `handle_event` maps a close request or the F1 key to `Trans::Quit`,
the Escape key to `Trans::Push(PausedState)`, any UI widget event to
`Trans::None`, and any input event that is not an action press to
`Trans::None`. -/
theorem c8_event_routing (c : DebugConfig) (widget code : Nat) :
    handle_event c (StateEvent.Window WindowEvent.CloseRequested)
      = (c, TransitionRequest.Quit) ∧
    handle_event c (StateEvent.Window (WindowEvent.KeyDown VirtualKeyCode.F1))
      = (c, TransitionRequest.Quit) ∧
    handle_event c
        (StateEvent.Window (WindowEvent.KeyDown VirtualKeyCode.Escape))
      = (c, TransitionRequest.PushPaused) ∧
    handle_event c (StateEvent.Ui widget) = (c, TransitionRequest.None) ∧
    handle_event c (StateEvent.Input (InputEvent.OtherInput code))
      = (c, TransitionRequest.None) :=
  ⟨rfl, rfl, rfl, rfl, rfl⟩

/-- A field name outside the declared schema of `DebugConfig` makes
`applyDebugConfigField` fail. -/
theorem applyDebugConfigField_unknown (c : DebugConfig) (name : String)
    (v : ConfigValue) (h : name ∉ debugConfigFieldNames) :
    applyDebugConfigField c name v = .error ("unknown field " ++ name) := by
  simp only [debugConfigFieldNames, List.mem_cons, List.not_mem_nil, or_false,
    not_or] at h
  obtain ⟨h1, h2, h3, h4, h5, h6⟩ := h
  simp [applyDebugConfigField, h1, h2, h3, h4, h5, h6]

/-- A field name outside the declared schema of `MovementConfig` makes
`applyMovementConfigField` fail. -/
theorem applyMovementConfigField_unknown (c : MovementConfig) (name : String)
    (v : ConfigValue) (h : name ∉ movementConfigFieldNames) :
    applyMovementConfigField c name v = .error ("unknown field " ++ name) := by
  simp only [movementConfigFieldNames, List.mem_cons, List.not_mem_nil,
    or_false, not_or] at h
  obtain ⟨h1, h2⟩ := h
  simp [applyMovementConfigField, h1, h2]

/-- An input that mentions a field name outside the declared schema makes
`deserializeDebugConfig` fail, from any intermediate record. -/
theorem deserializeDebugConfig_error_of_unknown :
    ∀ (fields : List (String × ConfigValue)) (c : DebugConfig),
      (∃ p ∈ fields, p.1 ∉ debugConfigFieldNames) →
      ∃ msg, deserializeDebugConfig fields c = .error msg := by
  intro fields
  induction fields with
  | nil => intro c hex; simp at hex
  | cons hd tl ih =>
    intro c hex
    rcases hd with ⟨name, v⟩
    by_cases hmem : name ∈ debugConfigFieldNames
    · cases happ : applyDebugConfigField c name v with
      | error e => exact ⟨e, by simp [deserializeDebugConfig, happ]⟩
      | ok c2 =>
        have hex2 : ∃ p ∈ tl, p.1 ∉ debugConfigFieldNames := by
          rcases hex with ⟨p, hp, hnp⟩
          rcases List.mem_cons.mp hp with hp0 | hp0
          · exact absurd hmem (by rw [hp0] at hnp; exact hnp)
          · exact ⟨p, hp0, hnp⟩
        obtain ⟨msg, hmsg⟩ := ih c2 hex2
        exact ⟨msg, by simp [deserializeDebugConfig, happ, hmsg]⟩
    · exact ⟨"unknown field " ++ name,
        by simp [deserializeDebugConfig,
          applyDebugConfigField_unknown c name v hmem]⟩

/-- An input that mentions a field name outside the declared schema makes
`deserializeMovementConfig` fail, from any intermediate record. -/
theorem deserializeMovementConfig_error_of_unknown :
    ∀ (fields : List (String × ConfigValue)) (c : MovementConfig),
      (∃ p ∈ fields, p.1 ∉ movementConfigFieldNames) →
      ∃ msg, deserializeMovementConfig fields c = .error msg := by
  intro fields
  induction fields with
  | nil => intro c hex; simp at hex
  | cons hd tl ih =>
    intro c hex
    rcases hd with ⟨name, v⟩
    by_cases hmem : name ∈ movementConfigFieldNames
    · cases happ : applyMovementConfigField c name v with
      | error e => exact ⟨e, by simp [deserializeMovementConfig, happ]⟩
      | ok c2 =>
        have hex2 : ∃ p ∈ tl, p.1 ∉ movementConfigFieldNames := by
          rcases hex with ⟨p, hp, hnp⟩
          rcases List.mem_cons.mp hp with hp0 | hp0
          · exact absurd hmem (by rw [hp0] at hnp; exact hnp)
          · exact ⟨p, hp0, hnp⟩
        obtain ⟨msg, hmsg⟩ := ih c2 hex2
        exact ⟨msg, by simp [deserializeMovementConfig, happ, hmsg]⟩
    · exact ⟨"unknown field " ++ name,
        by simp [deserializeMovementConfig,
          applyMovementConfigField_unknown c name v hmem]⟩

/-- C7: deserializing either configuration record from an input that contains
a field name not in the declared schema is rejected with an error, never
silently ignored. -/
theorem c7_deny_unknown_fields (fields : List (String × ConfigValue)) :
    ((∃ p ∈ fields, p.1 ∉ debugConfigFieldNames) →
      ∀ c, ∃ msg, deserializeDebugConfig fields c = .error msg) ∧
    ((∃ p ∈ fields, p.1 ∉ movementConfigFieldNames) →
      ∀ c, ∃ msg, deserializeMovementConfig fields c = .error msg) :=
  ⟨fun h c => deserializeDebugConfig_error_of_unknown fields c h,
   fun h c => deserializeMovementConfig_error_of_unknown fields c h⟩

/-- C7 witness: an input with the misspelled field `"time_sclae"` (resp.
`"player_sped"`) is rejected by the `DebugConfig` (resp. `MovementConfig`)
deserializer. -/
theorem c7_witness :
    (∃ msg, deserializeDebugConfig [("time_sclae", ConfigValue.float 1)]
      debugConfigDefault = .error msg) ∧
    (∃ msg, deserializeMovementConfig [("player_sped", ConfigValue.float 1)]
      movementConfigDefault = .error msg) :=
  ⟨(c7_deny_unknown_fields [("time_sclae", ConfigValue.float 1)]).1
      ⟨("time_sclae", ConfigValue.float 1), by simp, by decide⟩
      debugConfigDefault,
   (c7_deny_unknown_fields [("player_sped", ConfigValue.float 1)]).2
      ⟨("player_sped", ConfigValue.float 1), by simp, by decide⟩
      movementConfigDefault⟩

end DSF
